import Mathlib

/-!
# Verification of the laminar digest-ingestion pipeline

Shallow embedding of the core of the `laminar` repository: the tx-iterator
leader/support coordination (leader loop, reconciliation engine, promotion
controller), the RPC adapter's digest fetch, the digest store's query
builders, and the tx-puller's claim-and-process step.

Conventions used throughout:
* `Digest` is embedded as `List Nat` (the source's `pub type Digest = Vec<u8>`
  in `misc/src/lib.rs`); equality is byte-list equality.
* `SeqNum` (the source's `u64` `GatewayTxSeqNumber`) is embedded as `Nat`;
  none of the verified claims involves 64-bit wrap-around.
* Instants (`tokio::time::Instant`) are embedded as `Nat` ticks; the Rust
  `now.duration_since(ts) > threshold` becomes `now - ts > threshold` over
  `Nat` (Instants are monotone, so `ts ≤ now` in every real execution and
  truncated subtraction agrees).
* `HashMap<Digest, SeqNum>` is embedded as an association list with at most
  one entry per key (insertion replaces); `HashSet<Digest>` as a duplicate-free
  list; `VecDeque` as a list with `push_back = ++ [x]` and the front at the
  head.
* Async effects: each loop iteration consumes the already-joined results of
  its RPC/db calls, so the loops are embedded as pure step functions driven
  by oracles `Nat → _` giving the successive call results.
-/

namespace Laminar

/-- A transaction digest: 32 opaque bytes, embedded as a byte list
(`misc/src/lib.rs`: `pub type Digest = Vec<u8>`). -/
abbrev Digest := List Nat

/-- A node-local transaction sequence number (`GatewayTxSeqNumber`, a `u64`). -/
abbrev SeqNum := Nat

/-- Lookup in the association-list embedding of `HashMap<Digest, SeqNum>`.
Mirrors `HashMap::get` / `contains_key` (via `isSome`). -/
def lookupSeq (rpcOnly : List (Digest × SeqNum)) (d : Digest) : Option SeqNum :=
  match rpcOnly with
  | [] => none
  | (k, v) :: rest => if k = d then some v else lookupSeq rest d

/-- Insertion into the association-list embedding of `HashMap<Digest, SeqNum>`:
exactly one entry per key survives, as in `HashMap::insert`. -/
def insertSeq (rpcOnly : List (Digest × SeqNum)) (d : Digest) (s : SeqNum) :
    List (Digest × SeqNum) :=
  (d, s) :: rpcOnly.filter (fun e => e.1 ≠ d)

/-- Result of the drain step, `enum Promote` in `tx-iterator/src/support.rs`
(lines 181-184): either promote starting from a seqnum, or do not. -/
inductive Promote where
  | yes (startLeaderFromSeqnum : SeqNum)
  | no
deriving DecidableEq, Repr

/-- The drain step `pop_observed_digests` of `tx-iterator/src/support.rs`
(lines 192-240), embedded as a pure function. The deque of
`(observation instant, digest)` entries is consumed from the front:
an entry no longer in `rpc_only` is popped (already resolved); an entry
older than the threshold that the store does have is popped (out-of-order
ingest on boot); an entry older than the threshold that the store does not
have triggers `Promote` with its `rpc_only` seqnum; a young entry stops the
loop with `NoPromote`. Returns the decision together with the remaining
deque. `hasDigest` is the (pure, pre-joined) result of `db::has_digest`,
`now` the current instant, `threshold` the conf's aging duration. -/
def popObservedDigests (now threshold : Nat) (hasDigest : Digest → Bool)
    (rpcOnly : List (Digest × SeqNum)) (pending : List (Nat × Digest)) :
    Promote × List (Nat × Digest) :=
  match pending with
  | [] => (Promote.no, [])
  | (ts, d) :: rest =>
    match lookupSeq rpcOnly d with
    | none => popObservedDigests now threshold hasDigest rpcOnly rest
    | some s =>
      if now - ts > threshold then
        if hasDigest d then popObservedDigests now threshold hasDigest rpcOnly rest
        else (Promote.yes s, (ts, d) :: rest)
      else (Promote.no, (ts, d) :: rest)

/-- A pending entry that the drain loop pops without deciding: either its
digest is already resolved (absent from `rpc_only`), or it is aged beyond
the threshold but present in the store after all. -/
def resolvedOrAgedInStore (now threshold : Nat) (hasDigest : Digest → Bool)
    (rpcOnly : List (Digest × SeqNum)) (e : Nat × Digest) : Bool :=
  (lookupSeq rpcOnly e.2).isNone || (decide (now - e.1 > threshold) && hasDigest e.2)

/-- The RPC adapter's `fetch_digests` (`rpc/src/lib.rs` lines 19-48 and
`tx-iterator/src/rpc.rs` lines 14-42), embedded over an oracle
`attempts : Nat → _` giving the successive (post-retry, successful) results
of `get_transactions_in_range` for the fixed requested range, each a list of
`(seqnum, digest)` pairs. An empty result makes the loop sleep and poll the
next attempt; a non-empty result `txs` returns
`(txs.last.seqnum, txs.map digest)`. `fuel` bounds the polling loop; `none`
means the fuel ran out while the node kept answering with empty lists (the
Rust loop would still be polling). -/
def fetchDigests (attempts : Nat → List (SeqNum × Digest)) :
    Nat → Option (SeqNum × List Digest)
  | 0 => none
  | fuel + 1 =>
    match (attempts 0).getLast? with
    | some (seqNum, _) => some (seqNum, (attempts 0).map Prod.snd)
    | none => fetchDigests (fun i => attempts (i + 1)) fuel

/-- Membership removal on the duplicate-free-list embedding of
`HashSet<Digest>`: returns whether the digest was present (the Bool value of
`HashSet::remove`) together with the set without it. -/
def setRemove (s : List Digest) (d : Digest) : Bool × List Digest :=
  if d ∈ s then (true, s.filter (fun x => x ≠ d)) else (false, s)

/-- `HashSet::extend` (and the store-level contract of an order-preserving,
duplicate-skipping batch insert): append each element not already present,
preserving first-insertion order. -/
def setExtend (s : List Digest) (ds : List Digest) : List Digest :=
  ds.foldl (fun acc d => if d ∈ acc then acc else acc ++ [d]) s

/-- Body of the reconciliation loop of `support::start`
(`tx-iterator/src/support.rs` lines 82-90) for one `(seqnum, digest)` pair:
a digest found in `db_only` is removed from it; any other digest is appended
to `pending` with the observation instant and recorded in `rpc_only` under
its paired seqnum. -/
def reconcileOne (now : Nat)
    (st : List Digest × List (Digest × SeqNum) × List (Nat × Digest))
    (p : SeqNum × Digest) :
    List Digest × List (Digest × SeqNum) × List (Nat × Digest) :=
  let (isInDb, dbOnly2) := setRemove st.1 p.2
  if isInDb then (dbOnly2, st.2.1, st.2.2)
  else (dbOnly2, insertSeq st.2.1 p.2 p.1, st.2.2 ++ [(now, p.2)])

/-- The reconciliation step of `support::start` (`tx-iterator/src/support.rs`
lines 79-91): pair the fetched digests positionally with the half-open Rust
range `fetch_from_seqnum..latest_seqnum` (which excludes `latest_seqnum`,
and is empty when `latest_seqnum ≤ fetch_from_seqnum`) via `zip`, which
truncates to the shorter side, then process each pair with `reconcileOne`.
Returns the updated `(db_only, rpc_only, pending)`. -/
def reconcile (now : Nat) (fetchFrom latestSeqnum : SeqNum)
    (newRpcDigests : List Digest) (dbOnly : List Digest)
    (rpcOnly : List (Digest × SeqNum)) (pending : List (Nat × Digest)) :
    List Digest × List (Digest × SeqNum) × List (Nat × Digest) :=
  ((List.range' fetchFrom (latestSeqnum - fetchFrom)).zip newRpcDigests).foldl
    (reconcileOne now) (dbOnly, rpcOnly, pending)

/-- In-memory state of the support loop (`support::start` lines 36-51)
together with the two shared status-cell values it publishes. -/
structure SupportLoopState where
  fetchFrom : SeqNum
  latestDbDigest : Digest
  dbOnly : List Digest
  rpcOnly : List (Digest × SeqNum)
  pending : List (Nat × Digest)
  statusSeqnum : SeqNum
  statusIsLeader : Bool
deriving DecidableEq, Repr

/-- Support bootstrap (`support::start` lines 36-51): `fetch_from_seqnum` is
read once from the status cell before the loop; `initial_db_digests`
supplies the preloaded `db_only` set and the latest db digest; the other
collections start empty. -/
def supportInit (cellSeqnum : SeqNum) (latestDbDigest : Digest)
    (initialDbOnly : List Digest) : SupportLoopState :=
  { fetchFrom := cellSeqnum
    latestDbDigest := latestDbDigest
    dbOnly := initialDbOnly
    rpcOnly := []
    pending := []
    statusSeqnum := cellSeqnum
    statusIsLeader := false }

/-- One iteration of the support loop (`support::start` lines 53-129), fed
the already-joined results of this iteration's two calls: `rpcResult` from
`rpc::fetch_digests` and `dbResult` from `select_digests_since_exclusive`.
The db result, if non-empty, advances `latest_db_digest` and extends
`db_only`; the rpc result is reconciled; then the drain step either promotes
(publishing its seqnum to the status cell and setting the leader flag — the
loop then breaks) or publishes the oldest unconfirmed seqnum (front of the
drained deque resolved through `rpc_only`, defaulting to
`latest_seqnum + 1`). -/
def supportStep (threshold now : Nat) (hasDigest : Digest → Bool)
    (rpcResult : SeqNum × List Digest) (dbResult : List Digest)
    (st : SupportLoopState) : SupportLoopState :=
  let latestSeqnum := rpcResult.1
  let dbPair :=
    match dbResult.getLast? with
    | some latest => (latest, setExtend st.dbOnly dbResult)
    | none => (st.latestDbDigest, st.dbOnly)
  let rec3 := reconcile now st.fetchFrom latestSeqnum rpcResult.2 dbPair.2
    st.rpcOnly st.pending
  let drain := popObservedDigests now threshold hasDigest rec3.2.1 rec3.2.2
  match drain.1 with
  | Promote.yes s =>
    { fetchFrom := st.fetchFrom, latestDbDigest := dbPair.1, dbOnly := rec3.1,
      rpcOnly := rec3.2.1, pending := drain.2, statusSeqnum := s,
      statusIsLeader := true }
  | Promote.no =>
    { fetchFrom := st.fetchFrom, latestDbDigest := dbPair.1, dbOnly := rec3.1,
      rpcOnly := rec3.2.1, pending := drain.2,
      statusSeqnum :=
        (drain.2.head?.bind (fun p => lookupSeq rec3.2.1 p.2)).getD
          (latestSeqnum + 1),
      statusIsLeader := st.statusIsLeader }

/-- Run the support loop for at most `steps` iterations, or until the drain
step promotes (the `break`). `clock i` is the instant observed during
iteration `i`; `hasDigestOracle i` answers that iteration's `has_digest`
probes; `rpcOracle i arg` is the result of that iteration's
`fetch_digests(arg)`; `dbOracle i latest` the result of its
`select_digests_since_exclusive(latest)`. Returns the final state together
with the trace of arguments passed to `fetch_digests`, in call order. -/
def supportRun (threshold : Nat) (clock : Nat → Nat)
    (hasDigestOracle : Nat → Digest → Bool)
    (rpcOracle : Nat → SeqNum → SeqNum × List Digest)
    (dbOracle : Nat → Digest → List Digest)
    (st : SupportLoopState) : Nat → SupportLoopState × List SeqNum
  | 0 => (st, [])
  | steps + 1 =>
    if st.statusIsLeader then (st, [])
    else
      let arg := st.fetchFrom
      let st2 := supportStep threshold (clock 0) (hasDigestOracle 0)
        (rpcOracle 0 arg) (dbOracle 0 st.latestDbDigest) st
      let tail := supportRun threshold (fun i => clock (i + 1))
        (fun i => hasDigestOracle (i + 1)) (fun i => rpcOracle (i + 1))
        (fun i => dbOracle (i + 1)) st2 steps
      (tail.1, arg :: tail.2)

/-- The promotion sequence after the support loop breaks (`support::start`
lines 131-176): filter `pending` in order down to the digests still
recorded in `rpc_only`; if that list is non-empty, batch-insert it into the
store (embedded at the store contract level: order-preserving,
duplicate-skipping) and overwrite the status cell with the `rpc_only`
seqnum of the FIRST digest of that list plus one — the source binds
`digests_not_observed_in_db.first()` to the name `latest_digest` and
publishes `rpc_only[latest_digest] + 1`. When nothing is to be inserted the
store and the cell are left as they are. Returns the new store contents and
the published status-cell seqnum. -/
def promotionSequence (rpcOnly : List (Digest × SeqNum))
    (pending : List (Nat × Digest)) (statusSeqnum : SeqNum)
    (store : List Digest) : List Digest × SeqNum :=
  let digestsNotObservedInDb :=
    (pending.filter (fun p => (lookupSeq rpcOnly p.2).isSome)).map Prod.snd
  match digestsNotObservedInDb.head? with
  | none => (store, statusSeqnum)
  | some firstDigest =>
    (setExtend store digestsNotObservedInDb,
     (lookupSeq rpcOnly firstDigest).getD 0 + 1)

/-- The query builder `insert_digest_query` of `tx-iterator/src/db.rs`
(lines 83-89): `assert_ne!(digests_count, 0)` aborts the process on an empty
batch (embedded as `none`); otherwise the INSERT statement carries one `?`
placeholder per digest, comma-joined inside a single parenthesized VALUES
group. -/
def insertDigestQueryTxIter (digestsCount : Nat) : Option String :=
  if digestsCount = 0 then none
  else
    some ("INSERT INTO txs (digest) VALUES ("
      ++ String.intercalate "," (List.replicate digestsCount "?")
      ++ ") ON CONFLICT DO NOTHING")

/-- State of the leader loop (`tx-iterator/src/leader.rs`): the next seqnum
to fetch from, the prefetched digests awaiting durable write, and the store
contents (at the store contract level: ordered, duplicate-skipping). -/
structure LeaderState where
  fetchFrom : SeqNum
  digests : List Digest
  store : List Digest
deriving DecidableEq, Repr

/-- One iteration of the leader loop (`leader::start` lines 35-82):
`assert!(!digests.is_empty())`, then insert the previous batch (which goes
through `insert_digest_query` and its own emptiness assertion) while the
next batch is fetched; finally adopt the fetched digests and set
`fetch_from_seqnum` to the fetched `next_largest_seqnum + 1`, publishing it
to the status cell. `none` embeds an assertion abort. -/
def leaderIteration (st : LeaderState) (fetchResult : SeqNum × List Digest) :
    Option LeaderState :=
  if st.digests.isEmpty then none
  else
    match insertDigestQueryTxIter st.digests.length with
    | none => none
    | some _ =>
      some { fetchFrom := fetchResult.1 + 1, digests := fetchResult.2,
             store := setExtend st.store st.digests }

/-- Run the leader loop for `steps` iterations over the oracle
`fetches i arg`, the result of the i-th `fetch_digests(arg)` call. -/
def leaderRun (fetches : Nat → SeqNum → SeqNum × List Digest) :
    Nat → LeaderState → Option LeaderState
  | 0, st => some st
  | steps + 1, st =>
    match leaderIteration st (fetches 0 st.fetchFrom) with
    | none => none
    | some st2 => leaderRun (fun i => fetches (i + 1)) steps st2

/-- `leader::start` (lines 27-33): the priming `fetch_digests` call uses the
status cell's seqnum and its result `(latest_seqnum, digests)` is bound
directly to `(fetch_from_seqnum, digests)`; then the loop runs. -/
def leaderStart (fetches : Nat → SeqNum → SeqNum × List Digest)
    (cellSeqnum : SeqNum) (steps : Nat) : Option LeaderState :=
  let primed := fetches 0 cellSeqnum
  leaderRun (fun i => fetches (i + 1)) steps
    { fetchFrom := primed.1, digests := primed.2, store := [] }

/-- The query builder `insert_digest_query` of `db/src/lib.rs` (lines
104-110): aborts on an empty batch (`assert_ne!`, embedded as `none`) and
otherwise emits one `?` placeholder per digest, comma-joined inside a
single parenthesized VALUES group, targeting the one-column list `(digest)`
of the `digests` table. -/
def insertDigestQueryDb (digestsCount : Nat) : Option String :=
  if digestsCount = 0 then none
  else
    some ("INSERT INTO digests (digest) VALUES ("
      ++ String.intercalate "," (List.replicate digestsCount "?")
      ++ ") ON CONFLICT DO NOTHING")

/-- Modelled from the spec: the SQL engine executing the store's statements
is missing from src/. Per the canonical schema `digests(id bigserial pk,
digest bytea unique, status smallint default 0)` (spec §6) and the store
contract that `insert_digests(ordered[Digest])` stores one id-ordered row
per digest with duplicates skipped (spec §4.1), the statement inserting an
n-digest batch into the single target column `digest` carries n
parenthesized row groups of one placeholder each. -/
def specInsertDigestQuery (digestsCount : Nat) : String :=
  "INSERT INTO digests (digest) VALUES "
    ++ String.intercalate "," (List.replicate digestsCount "(?)")
    ++ " ON CONFLICT DO NOTHING"

/-- The UPDATE statement of `mark_digests_as_processed` in `db/src/lib.rs`
(lines 146-152), whitespace normalized from the multi-line Rust string
literal: one single `?` placeholder inside `IN (...)`, however many ids are
passed alongside it to `execute_raw`. -/
def markDigestsAsProcessedQuery : String :=
  "UPDATE digests SET status = 1 WHERE id IN (?)"

/-- Modelled from the spec: the driver binding parameters to the statement
is missing from src/. The design note (spec §9) states that the correct
design "expands placeholders to the cardinality of the id list"; this is
the statement marking each of n ids. -/
def specMarkProcessedQuery (idsCount : Nat) : String :=
  "UPDATE digests SET status = 1 WHERE id IN ("
    ++ String.intercalate "," (List.replicate idsCount "?") ++ ")"

/-- Number of bind placeholders in a statement. -/
def placeholderCount (q : String) : Nat := q.toList.count '?'

/-- The parsed configuration relevant to boot (`tx-iterator/src/conf.rs`
lines 99-104): `INITIAL_SEQ_NUM` is parsed from the environment into
`initial_seq_num : Option<SeqNum>`. -/
structure ConfInitial where
  initialSeqNum : Option SeqNum
deriving DecidableEq, Repr

/-- `find_seqnum_to_start_iterating_from` (`tx-iterator/src/boot.rs` lines
43-73): the local `latest_db_digest` is the literal `None::<String>`, so
the `else` branch always runs and the function returns the RPC node's
`get_total_transaction_number()`; it is not passed the conf at all. -/
def findSeqnumToStartIteratingFrom (totalTransactions : SeqNum) : SeqNum :=
  totalTransactions

/-- Boot of `tx-iterator/src/main.rs` (lines 29-45): the shared
`next_fetch_from_seqnum` cell is initialized from
`find_seqnum_to_start_iterating_from(&db, &sui)`; `conf.initial_seq_num`
is never read anywhere after parsing. -/
def bootNextFetchFromSeqnum (_conf : ConfInitial)
    (totalTransactions : SeqNum) : SeqNum :=
  findSeqnumToStartIteratingFrom totalTransactions

/-- Modelled from the spec: the env table (spec §6) defines
`INITIAL_SEQ_NUM` as the "Seqnum to start from; if absent, start from RPC's
total_transactions". -/
def specBootSeqnum (conf : ConfInitial) (totalTransactions : SeqNum) : SeqNum :=
  conf.initialSeqNum.getD totalTransactions

/-- Raw key bytes handed to the membership filter (addresses, object ids,
package ids, and concatenated composites). -/
abbrev Bytes := List Nat

/-- `sui_types::object::Owner`: owner of an involved object. -/
inductive Owner where
  | addressOwner (addr : Bytes)
  | objectOwner (addr : Bytes)
  | shared
  | immutable
deriving DecidableEq, Repr

/-- `Owner::get_owner_address`: the address for the two address-carrying
owner variants, an error (here `none`) for `Shared`/`Immutable`. -/
def getOwnerAddress : Owner → Option Bytes
  | .addressOwner a => some a
  | .objectOwner a => some a
  | .shared => none
  | .immutable => none

/-- An `OwnedObjectRef` as consumed by `is_tx_of_interest`: its `owner` and
its `reference.object_id` bytes. -/
structure OwnedObjectRef where
  owner : Owner
  objectId : Bytes
deriving DecidableEq, Repr

/-- A bare `SuiObjectRef` (shared/deleted/wrapped lists): only its
`object_id` bytes are consumed. -/
structure SuiObjectRef where
  objectId : Bytes
deriving DecidableEq, Repr

/-- The `SuiEvent` variants matched by `is_event_of_interest`
(`tx-puller/src/main.rs` lines 157-225), with exactly the fields that
function reads; `moveEvent`'s `txModule` and `typeName` are the byte views
of `transaction_module` and `type_`. -/
inductive SuiEvent where
  | checkpoint
  | epochChange
  | moveEvent (packageId sender txModule typeName : Bytes)
  | publish (packageId sender : Bytes)
  | transferObject (packageId sender : Bytes) (recipient : Owner)
      (objectId : Bytes)
  | deleteObject (packageId sender objectId : Bytes)
  | newObject (packageId sender : Bytes) (recipient : Owner)
      (objectId : Bytes)
deriving DecidableEq, Repr

/-- `SuiExecutionStatus`. -/
inductive ExecutionStatus where
  | success
  | failure
deriving DecidableEq, Repr

/-- The fields of `tx.effects` consumed by `is_tx_of_interest`. -/
structure TxEffects where
  status : ExecutionStatus
  gasObject : OwnedObjectRef
  created : List OwnedObjectRef
  mutated : List OwnedObjectRef
  unwrapped : List OwnedObjectRef
  sharedObjects : List SuiObjectRef
  deleted : List SuiObjectRef
  wrapped : List SuiObjectRef
  events : List SuiEvent
deriving DecidableEq, Repr

/-- The fields of a `SuiTransactionResponse` consumed by
`is_tx_of_interest`: the effects and `certificate.data.sender`. -/
structure TxResponse where
  effects : TxEffects
  sender : Bytes
deriving DecidableEq, Repr

/-- `is_event_of_interest` (`tx-puller/src/main.rs` lines 157-225): per
event variant, membership probes in source order; the recipient probe is
`recipient.get_owner_address().map(contains).unwrap_or(false)`. -/
def isEventOfInterest (bloom : Bytes → Bool) : SuiEvent → Bool
  | .checkpoint => false
  | .epochChange => false
  | .moveEvent packageId sender txModule typeName =>
    bloom packageId || bloom sender || bloom (packageId ++ txModule ++ typeName)
  | .publish packageId sender => bloom packageId || bloom sender
  | .transferObject packageId sender recipient objectId =>
    bloom packageId || bloom objectId || bloom sender ||
      ((getOwnerAddress recipient).map bloom).getD false
  | .deleteObject packageId sender objectId =>
    bloom packageId || bloom objectId || bloom sender
  | .newObject packageId sender recipient objectId =>
    bloom packageId || bloom objectId || bloom sender ||
      ((getOwnerAddress recipient).map bloom).getD false

/-- The per-object probe of the first loop of `is_tx_of_interest`: match on
the owner (`AddressOwner | ObjectOwner` probe the address; `Shared |
Immutable` nothing), then probe the `reference.object_id`. -/
def ownedObjHit (bloom : Bytes → Bool) (o : OwnedObjectRef) : Bool :=
  (match o.owner with
   | .addressOwner addr => bloom addr
   | .objectOwner addr => bloom addr
   | .shared => false
   | .immutable => false) || bloom o.objectId

/-- `is_tx_of_interest` (`tx-puller/src/main.rs` lines 111-155): gate on
execution status, then probe — in source order — the owned objects
(`gas_object`, `created`, `mutated`, `unwrapped`: owner address and object
id), the bare refs (`shared_objects`, `deleted`, `wrapped`: object id), the
events, and finally the certificate sender. The source's sequential
early-return loops are embedded as `List.any` disjunctions. -/
def isTxOfInterest (bloom : Bytes → Bool) (tx : TxResponse) : Bool :=
  match tx.effects.status with
  | .failure => false
  | .success =>
    ((tx.effects.gasObject ::
        (tx.effects.created ++ tx.effects.mutated ++ tx.effects.unwrapped)).any
      (ownedObjHit bloom))
    || ((tx.effects.sharedObjects ++ tx.effects.deleted ++ tx.effects.wrapped).any
      (fun o => bloom o.objectId))
    || tx.effects.events.any (isEventOfInterest bloom)
    || bloom tx.sender

/-- Filter keys contributed by one owned object, per the `is_of_interest`
contract of spec §4.6: the owner address (for the address-carrying owner
variants) and the object id. -/
def ownedObjKeys (o : OwnedObjectRef) : List Bytes :=
  (getOwnerAddress o.owner).toList ++ [o.objectId]

/-- Filter keys contributed by one event, per the `is_of_interest` contract
of spec §4.6: its `package_id`, its `sender`, the composite
`package_id ++ module ++ type_name` for move events, the involved object id
for the object events, and the recipient owner address (when there is one)
for transfer/new-object events. -/
def eventKeys : SuiEvent → List Bytes
  | .checkpoint => []
  | .epochChange => []
  | .moveEvent packageId sender txModule typeName =>
    [packageId, sender, packageId ++ txModule ++ typeName]
  | .publish packageId sender => [packageId, sender]
  | .transferObject packageId sender recipient objectId =>
    [packageId, sender, objectId] ++ (getOwnerAddress recipient).toList
  | .deleteObject packageId sender objectId => [packageId, sender, objectId]
  | .newObject packageId sender recipient objectId =>
    [packageId, sender, objectId] ++ (getOwnerAddress recipient).toList

/-- The full key list of the `is_of_interest` contract (spec §4.6): the
transaction's sender; per involved owned/created/mutated/unwrapped object
its owner address and object id; per shared/deleted/wrapped object its
object id; and per event the keys of `eventKeys`. -/
def interestKeys (tx : TxResponse) : List Bytes :=
  tx.sender ::
    ((tx.effects.gasObject ::
        (tx.effects.created ++ tx.effects.mutated ++ tx.effects.unwrapped)).flatMap
      ownedObjKeys
    ++ (tx.effects.sharedObjects ++ tx.effects.deleted ++ tx.effects.wrapped).map
      SuiObjectRef.objectId
    ++ tx.effects.events.flatMap eventKeys)

/-- The classification fold of `process_next_batch`
(`tx-puller/src/main.rs` lines 70-84): zip the claimed `(id, digest)` rows
with their fetch results, keep the successful fetches (`filter_map` over
`response.ok()`), push every surviving id onto `ids_to_mark_processed`
inside the `filter` closure — before and regardless of the
`is_tx_of_interest` outcome — and keep for serialization only the rows of
interest. Returns `(ids_to_mark_processed, rows kept for serialization)`;
ids are `Int` (`i64`). -/
def collectProcessedBatch (bloom : Bytes → Bool)
    (fetched : List ((Int × Digest) × Option TxResponse)) :
    List Int × List ((Int × Digest) × TxResponse) :=
  let successes := fetched.filterMap (fun p => p.2.map (fun r => (p.1, r)))
  (successes.map (fun p => p.1.1),
   successes.filter (fun p => isTxOfInterest bloom p.2))

/-- A membership filter containing exactly the byte key `[9]`. -/
def bloomSingle : Bytes → Bool := fun b => decide (b = [9])

/-- Effects with a given status and no involved objects or events, over a
gas object owned by nobody the filter knows. -/
def emptyEffects (st : ExecutionStatus) : TxEffects :=
  { status := st, gasObject := { owner := Owner.immutable, objectId := [0] },
    created := [], mutated := [], unwrapped := [], sharedObjects := [],
    deleted := [], wrapped := [], events := [] }

/-- A successful transaction whose sender `[9]` is in `bloomSingle`. -/
def txHit : TxResponse := { effects := emptyEffects .success, sender := [9] }

/-- A successful transaction with no key in `bloomSingle`. -/
def txMiss : TxResponse := { effects := emptyEffects .success, sender := [8] }

theorem popObservedDigests_eq_dropWhile (now threshold : Nat)
    (hasDigest : Digest → Bool) (rpcOnly : List (Digest × SeqNum))
    (pending : List (Nat × Digest)) :
    popObservedDigests now threshold hasDigest rpcOnly pending =
      match pending.dropWhile (resolvedOrAgedInStore now threshold hasDigest rpcOnly) with
      | [] => (Promote.no, [])
      | (ts, d) :: rest =>
        if now - ts > threshold then
          (Promote.yes ((lookupSeq rpcOnly d).getD 0), (ts, d) :: rest)
        else
          (Promote.no, (ts, d) :: rest) := by
  induction pending with
  | nil => simp [popObservedDigests, List.dropWhile]
  | cons e rest ih =>
    obtain ⟨ts, d⟩ := e
    by_cases hres : lookupSeq rpcOnly d = none
    · have hcond : resolvedOrAgedInStore now threshold hasDigest rpcOnly (ts, d) = true := by
        simp [resolvedOrAgedInStore, hres]
      simp only [popObservedDigests, hres, List.dropWhile, hcond]
      exact ih
    · obtain ⟨s, hs⟩ := Option.ne_none_iff_exists'.mp hres
      by_cases haged : now - ts > threshold
      · by_cases hhas : hasDigest d = true
        · have hcond : resolvedOrAgedInStore now threshold hasDigest rpcOnly (ts, d) = true := by
            simp [resolvedOrAgedInStore, haged, hhas]
          simp only [popObservedDigests, hs, haged, if_pos, hhas, List.dropWhile, hcond,
            ite_true]
          exact ih
        · have hcond : resolvedOrAgedInStore now threshold hasDigest rpcOnly (ts, d) = false := by
            simp [resolvedOrAgedInStore, hs, haged, hhas]
          simp [popObservedDigests, hs, haged, hhas, List.dropWhile, hcond]
      · have hcond : resolvedOrAgedInStore now threshold hasDigest rpcOnly (ts, d) = false := by
          simp [resolvedOrAgedInStore, hs, haged]
        simp [popObservedDigests, hs, haged, List.dropWhile, hcond]

theorem dropWhileHeadFalse {α : Type} (p : α → Bool) :
    ∀ (l : List α) (a : α) (rest : List α), l.dropWhile p = a :: rest → p a = false := by
  intro l
  induction l with
  | nil =>
    intro a rest h
    simp [List.dropWhile] at h
  | cons x xs ih =>
    intro a rest h
    by_cases hx : p x = true
    · rw [List.dropWhile_cons_of_pos hx] at h
      exact ih a rest h
    · rw [List.dropWhile_cons_of_neg (by simpa using hx)] at h
      injection h with h1 h2
      subst h1
      simpa using hx

/-- C1. The drain step `pop_observed_digests` returns `Promote s` if and only
if, after popping the maximal front run of pending entries that are resolved
(absent from `rpc_only`) or aged-but-present-in-store, a front entry remains
whose age exceeds the threshold, whose digest is still in `rpc_only` (with
seqnum `s`), and for which `has_digest` is false. In every other case it
returns `NoPromote`, the surviving deque is exactly the part after that
popped run, and every popped entry was resolved or aged-and-in-store — in
particular no unaged entry still in `rpc_only` is ever removed. -/
theorem c1_drain_promote_iff (now threshold : Nat) (hasDigest : Digest → Bool)
    (rpcOnly : List (Digest × SeqNum)) (pending : List (Nat × Digest)) :
    (∀ s : SeqNum,
      (popObservedDigests now threshold hasDigest rpcOnly pending).1 = Promote.yes s ↔
        ∃ ts d rest,
          pending.dropWhile (resolvedOrAgedInStore now threshold hasDigest rpcOnly) =
            (ts, d) :: rest ∧
          now - ts > threshold ∧ lookupSeq rpcOnly d = some s ∧ hasDigest d = false)
    ∧ ((popObservedDigests now threshold hasDigest rpcOnly pending).1 = Promote.no →
        (popObservedDigests now threshold hasDigest rpcOnly pending).2 =
          pending.dropWhile (resolvedOrAgedInStore now threshold hasDigest rpcOnly))
    ∧ (∀ e ∈ pending.takeWhile (resolvedOrAgedInStore now threshold hasDigest rpcOnly),
        lookupSeq rpcOnly e.2 = none ∨
          (now - e.1 > threshold ∧ hasDigest e.2 = true)) := by
  rw [popObservedDigests_eq_dropWhile]
  refine ⟨?_, ?_, ?_⟩
  · intro s
    cases hdw : pending.dropWhile (resolvedOrAgedInStore now threshold hasDigest rpcOnly) with
    | nil => simp
    | cons e rest =>
      obtain ⟨ts, d⟩ := e
      have hhead : resolvedOrAgedInStore now threshold hasDigest rpcOnly (ts, d) = false :=
        dropWhileHeadFalse _ pending (ts, d) rest hdw
      by_cases haged : now - ts > threshold
      · have hksome : (lookupSeq rpcOnly d).isSome ∧ hasDigest d = false := by
          simp only [resolvedOrAgedInStore, Bool.or_eq_false_iff, Bool.and_eq_false_iff,
            Option.isNone_eq_false_iff, decide_eq_false_iff_not] at hhead
          rcases hhead with ⟨h1, h2⟩
          rcases h2 with h2 | h2
          · exact absurd haged h2
          · exact ⟨h1, by simpa using h2⟩
        obtain ⟨hk, hhas⟩ := hksome
        obtain ⟨sv, hsv⟩ := Option.isSome_iff_exists.mp hk
        simp only [haged, if_pos]
        constructor
        · intro hyes
          have hgd : (lookupSeq rpcOnly d).getD 0 = s := by simpa using hyes
          refine ⟨ts, d, rest, rfl, haged, ?_, hhas⟩
          rw [hsv] at hgd ⊢
          simp only [Option.getD_some] at hgd
          rw [hgd]
        · rintro ⟨ts2, d2, rest2, heq, -, hlook, -⟩
          obtain ⟨h1, h2, -⟩ : ts = ts2 ∧ d = d2 ∧ rest = rest2 := by
            simp only [List.cons.injEq, Prod.mk.injEq] at heq
            exact ⟨heq.1.1, heq.1.2, heq.2⟩
          subst h1
          subst h2
          have hs2 : sv = s := by
            rw [hsv] at hlook
            exact Option.some.inj hlook
          simp [hsv, hs2]
      · simp only [haged, if_neg, ite_false]
        constructor
        · intro h
          exact absurd h (by simp)
        · rintro ⟨ts2, d2, rest2, heq, haged2, -, -⟩
          obtain ⟨h1, -, -⟩ : ts = ts2 ∧ d = d2 ∧ rest = rest2 := by
            simp only [List.cons.injEq, Prod.mk.injEq] at heq
            exact ⟨heq.1.1, heq.1.2, heq.2⟩
          subst h1
          exact absurd haged2 haged
  · intro hno
    cases hdw : pending.dropWhile (resolvedOrAgedInStore now threshold hasDigest rpcOnly) with
    | nil => simp
    | cons e rest =>
      obtain ⟨ts, d⟩ := e
      rw [hdw] at hno
      by_cases haged : now - ts > threshold
      · simp [haged] at hno
      · simp [haged]
  · intro e he
    have := List.mem_takeWhile_imp he
    simp only [resolvedOrAgedInStore, Bool.or_eq_true, Bool.and_eq_true,
      Option.isNone_iff_eq_none, decide_eq_true_eq] at this
    exact this

/-- Concrete instantiation of `c1_drain_promote_iff`: a single pending entry
observed at tick 0, checked at tick 100 with threshold 30, still in
`rpc_only` at seqnum 51 and absent from the store, yields `Promote 51`. -/
theorem c1_drain_promote_iff_witness :
    (popObservedDigests 100 30 (fun _ => false) [([51], 51)] [(0, [51])]).1 =
      Promote.yes 51 :=
  ((c1_drain_promote_iff 100 30 (fun _ => false) [([51], 51)] [(0, [51])]).1 51).mpr
    ⟨0, [51], [], by decide, by decide, by decide, by decide⟩

/-- C4. Whenever `fetch_digests` returns, the digest list is non-empty and
the returned `highest_seqnum` is the seqnum the node paired with the last
digest of the list; every attempt before the returning one answered with an
empty list (those only caused a sleep-and-retry, never a return). -/
theorem c4_fetch_digests_nonempty_last_seqnum
    (attempts : Nat → List (SeqNum × Digest)) (fuel : Nat) (h : SeqNum)
    (ds : List Digest) (hret : fetchDigests attempts fuel = some (h, ds)) :
    ds ≠ [] ∧ ∃ k d, k < fuel ∧ (∀ j < k, attempts j = []) ∧
      ds = (attempts k).map Prod.snd ∧
      (attempts k).getLast? = some (h, d) ∧ ds.getLast? = some d := by
  induction fuel generalizing attempts h ds with
  | zero => simp [fetchDigests] at hret
  | succ fuel ih =>
    cases hlast : (attempts 0).getLast? with
    | some p =>
      obtain ⟨s0, d0⟩ := p
      rw [fetchDigests, hlast] at hret
      obtain ⟨rfl, rfl⟩ : s0 = h ∧ (attempts 0).map Prod.snd = ds := by
        have := Option.some.inj hret
        exact ⟨congrArg Prod.fst this, congrArg Prod.snd this⟩
      refine ⟨?_, 0, d0, Nat.succ_pos _, by omega, rfl, hlast, ?_⟩
      · intro hnil
        rw [List.map_eq_nil_iff] at hnil
        rw [hnil] at hlast
        simp at hlast
      · rw [List.getLast?_map]
        rw [hlast]
        rfl
    | none =>
      rw [fetchDigests, hlast] at hret
      obtain ⟨hne, k, d, hk, hprev, hds, hgl, hdl⟩ := ih _ h ds hret
      refine ⟨hne, k + 1, d, by omega, ?_, hds, hgl, hdl⟩
      intro j hj
      cases j with
      | zero => exact List.getLast?_eq_none_iff.mp hlast
      | succ j => exact hprev j (by omega)

/-- Concrete instantiation of `c4_fetch_digests_nonempty_last_seqnum`: the
node answers the first poll with nothing and the second with two digests at
seqnums 5 and 6; the adapter returns `(6, [[10], [11]])`. -/
theorem c4_fetch_digests_witness :
    ([[10], [11]] : List Digest) ≠ [] ∧ ∃ k d, k < 2 ∧
      (∀ j < k, (fun i => if i = 1 then [((5 : SeqNum), ([10] : Digest)), (6, [11])] else []) j = []) ∧
      ([[10], [11]] : List Digest) =
        ((fun i => if i = 1 then [((5 : SeqNum), ([10] : Digest)), (6, [11])] else []) k).map Prod.snd ∧
      ((fun i => if i = 1 then [((5 : SeqNum), ([10] : Digest)), (6, [11])] else []) k).getLast? =
        some (6, d) ∧
      ([[10], [11]] : List Digest).getLast? = some d :=
  c4_fetch_digests_nonempty_last_seqnum
    (fun i => if i = 1 then [((5 : SeqNum), ([10] : Digest)), (6, [11])] else [])
    2 6 [[10], [11]] (by decide)

/-- C3, refuting evidence (scenario S2). With `fetch_from_seqnum = 0`, the
RPC call returning digests `d1..d10` (here `[1]..[10]`) for seqnums `0..9`
— so `latest_seqnum = 9`, the seqnum of the last digest — and the store
side holding the same ten digests in `db_only`, the reconciliation step
pairs the digests with the half-open range `0..9` and therefore processes
only `d1..d9`: afterwards `db_only = {d10}` (not empty as the claim states),
`d10` was neither removed from `db_only` nor recorded in
`rpc_only`/`pending`. -/
theorem c3_s2_last_digest_unprocessed :
    reconcile 0 0 9
      [[1], [2], [3], [4], [5], [6], [7], [8], [9], [10]]
      [[1], [2], [3], [4], [5], [6], [7], [8], [9], [10]] [] [] =
      ([[10]], [], []) ∧ ([[10]] : List Digest) ≠ [] := by decide

/-- C2, refuting evidence (scenario S3). With `pending` holding `d51, d52`
(here `[51], [52]`) and `rpc_only` mapping them to seqnums 51 and 52, the
promotion sequence inserts `[d51, d52]` but publishes
`rpc_only[first inserted digest] + 1 = 52` to the status cell, not
`seqnum_of_last_inserted + 1 = 53` as the claim states. -/
theorem c2_promotion_publishes_first_seqnum :
    promotionSequence [([51], 51), ([52], 52)] [(0, [51]), (1, [52])] 51 [] =
      ([[51], [52]], 52)
    ∧ (lookupSeq [([51], 51), ([52], 52)] [52]).getD 0 + 1 = 53
    ∧ (52 : SeqNum) ≠ 53 := by decide

theorem supportStep_fetchFrom (threshold now : Nat) (hasDigest : Digest → Bool)
    (rpcResult : SeqNum × List Digest) (dbResult : List Digest)
    (st : SupportLoopState) :
    (supportStep threshold now hasDigest rpcResult dbResult st).fetchFrom =
      st.fetchFrom := by
  unfold supportStep
  split
  all_goals
    dsimp only
    split <;> rfl

theorem supportRun_args_eq_fetchFrom (threshold : Nat) :
    ∀ (steps : Nat) (clock : Nat → Nat) (hasDigestOracle : Nat → Digest → Bool)
      (rpcOracle : Nat → SeqNum → SeqNum × List Digest)
      (dbOracle : Nat → Digest → List Digest) (st : SupportLoopState),
      ∀ arg ∈ (supportRun threshold clock hasDigestOracle rpcOracle dbOracle
          st steps).2, arg = st.fetchFrom := by
  intro steps
  induction steps with
  | zero =>
    intro _ _ _ _ _ arg h
    simp [supportRun] at h
  | succ steps ih =>
    intro clock hasDigestOracle rpcOracle dbOracle st arg h
    rw [supportRun] at h
    by_cases hl : st.statusIsLeader
    · simp [hl] at h
    · simp only [hl, if_neg, Bool.false_eq_true, not_false_eq_true, ite_false,
        List.mem_cons] at h
      rcases h with h | h
      · exact h
      · have := ih (fun i => clock (i + 1)) (fun i => hasDigestOracle (i + 1))
          (fun i => rpcOracle (i + 1)) (fun i => dbOracle (i + 1))
          (supportStep threshold (clock 0) (hasDigestOracle 0)
            (rpcOracle 0 st.fetchFrom) (dbOracle 0 st.latestDbDigest) st)
          arg h
        rw [this, supportStep_fetchFrom]

/-- C10. Over any run of the support loop, every argument ever passed to
`fetch_digests` equals the seqnum read once from the status cell before the
loop: the support's RPC fetch window never advances while the role lasts,
whatever the status cell is later set to. -/
theorem c10_support_fetch_window_invariant (threshold : Nat)
    (clock : Nat → Nat) (hasDigestOracle : Nat → Digest → Bool)
    (rpcOracle : Nat → SeqNum → SeqNum × List Digest)
    (dbOracle : Nat → Digest → List Digest) (cellSeqnum : SeqNum)
    (latestDbDigest : Digest) (initialDbOnly : List Digest) (steps : Nat) :
    ∀ arg ∈ (supportRun threshold clock hasDigestOracle rpcOracle dbOracle
        (supportInit cellSeqnum latestDbDigest initialDbOnly) steps).2,
      arg = cellSeqnum := by
  intro arg h
  exact supportRun_args_eq_fetchFrom threshold steps clock hasDigestOracle
    rpcOracle dbOracle (supportInit cellSeqnum latestDbDigest initialDbOnly)
    arg h

/-- Concrete instantiation of `c10_support_fetch_window_invariant`: two
iterations of a support loop started from cell value 7, with an RPC node
answering `(arg, [[1]])`; both fetch calls use argument 7 even though the
published status seqnum has moved to 8. -/
theorem c10_support_fetch_window_invariant_witness :
    (7 : SeqNum) = 7 ∧
      7 ∈ (supportRun 30 (fun i => i) (fun _ _ => false)
        (fun _ arg => (arg, [[1]])) (fun _ _ => []) (supportInit 7 [0] []) 2).2 :=
  ⟨c10_support_fetch_window_invariant 30 (fun i => i) (fun _ _ => false)
      (fun _ arg => (arg, [[1]])) (fun _ _ => []) 7 [0] [] 2 7 (by decide),
    by decide⟩

theorem leaderRun_ok (steps : Nat) :
    ∀ (fetches : Nat → SeqNum → SeqNum × List Digest) (st : LeaderState),
      st.digests ≠ [] → (∀ i a, (fetches i a).2 ≠ []) →
      ∃ st2, leaderRun fetches steps st = some st2 := by
  induction steps with
  | zero =>
    intro fetches st _ _
    exact ⟨st, rfl⟩
  | succ steps ih =>
    intro fetches st hne hor
    have hemp : st.digests.isEmpty = false := by
      cases h : st.digests with
      | nil => exact absurd h hne
      | cons a l => simp [h]
    have hq : insertDigestQueryTxIter st.digests.length =
        some ("INSERT INTO txs (digest) VALUES ("
          ++ String.intercalate "," (List.replicate st.digests.length "?")
          ++ ") ON CONFLICT DO NOTHING") := by
      rw [insertDigestQueryTxIter, if_neg]
      simpa using hne
    obtain ⟨st3, h3⟩ := ih (fun i => fetches (i + 1))
      { fetchFrom := (fetches 0 st.fetchFrom).1 + 1,
        digests := (fetches 0 st.fetchFrom).2,
        store := setExtend st.store st.digests }
      (hor 0 st.fetchFrom) (fun i a => hor (i + 1) a)
    refine ⟨st3, ?_⟩
    rw [leaderRun, leaderIteration, hemp]
    simp only [Bool.false_eq_true, ite_false, hq]
    exact h3

/-- C9. The query builder aborts on an empty batch
(`assert_ne!(digests_count, 0)` embedded as `none`), and under the
precondition that every `fetch_digests` result is non-empty, a leader run of
any length completes without tripping either that assertion or the loop's
`assert!(!digests.is_empty())` (both aborts are embedded as `none`, and the
run returns `some`). -/
theorem c9_empty_insert_aborts_and_leader_never_asserts
    (fetches : Nat → SeqNum → SeqNum × List Digest) (cellSeqnum : SeqNum)
    (steps : Nat) (hne : ∀ i a, (fetches i a).2 ≠ []) :
    insertDigestQueryTxIter 0 = none ∧
      ∃ st, leaderStart fetches cellSeqnum steps = some st := by
  refine ⟨rfl, ?_⟩
  exact leaderRun_ok steps (fun i => fetches (i + 1))
    { fetchFrom := (fetches 0 cellSeqnum).1, digests := (fetches 0 cellSeqnum).2,
      store := [] }
    (hne 0 cellSeqnum) (fun i a => hne (i + 1) a)

/-- Concrete instantiation of
`c9_empty_insert_aborts_and_leader_never_asserts`: an RPC node answering
every fetch with one digest lets a three-iteration leader run complete. -/
theorem c9_empty_insert_aborts_witness :
    insertDigestQueryTxIter 0 = none ∧
      ∃ st, leaderStart (fun _ _ => (5, [[1]])) 0 3 = some st :=
  c9_empty_insert_aborts_and_leader_never_asserts (fun _ _ => (5, [[1]])) 0 3
    (fun _ _ => List.cons_ne_nil _ _)

/-- C5, refuting evidence. For a two-digest batch the builder emits
`VALUES (?,?)` — a single row group with two expressions for the one-column
target list `(digest)` — instead of the two single-placeholder row groups
`VALUES (?),(?)` that a one-row-per-digest batch insert requires, so the
batch statement cannot store one row per digest and the
insert-then-select round trip of the claim fails for every batch of two or
more digests. For a one-digest batch the two statements coincide. -/
theorem c5_batch_insert_single_row_group :
    insertDigestQueryDb 2 =
      some "INSERT INTO digests (digest) VALUES (?,?) ON CONFLICT DO NOTHING"
    ∧ specInsertDigestQuery 2 =
      "INSERT INTO digests (digest) VALUES (?),(?) ON CONFLICT DO NOTHING"
    ∧ insertDigestQueryDb 2 ≠ some (specInsertDigestQuery 2)
    ∧ insertDigestQueryDb 1 = some (specInsertDigestQuery 1) := by decide

/-- C8, refuting evidence. With `INITIAL_SEQ_NUM=5` in the environment and
an RPC node reporting 100 total transactions, the status cell is
initialized to 100, not 5: the parsed `initial_seq_num` is dead
configuration and the process always starts from `total_transactions`.
When the variable is absent the two agree. -/
theorem c8_initial_seq_num_ignored :
    bootNextFetchFromSeqnum ⟨some 5⟩ 100 = 100
    ∧ specBootSeqnum ⟨some 5⟩ 100 = 5
    ∧ bootNextFetchFromSeqnum ⟨some 5⟩ 100 ≠ specBootSeqnum ⟨some 5⟩ 100
    ∧ bootNextFetchFromSeqnum ⟨none⟩ 100 = specBootSeqnum ⟨none⟩ 100 := by
  decide

theorem ownedObjHit_iff (bloom : Bytes → Bool) (o : OwnedObjectRef) :
    ownedObjHit bloom o = true ↔ ∃ k ∈ ownedObjKeys o, bloom k = true := by
  obtain ⟨ow, oid⟩ := o
  cases ow <;>
    simp [ownedObjHit, ownedObjKeys, getOwnerAddress]

theorem isEventOfInterest_iff (bloom : Bytes → Bool) (ev : SuiEvent) :
    isEventOfInterest bloom ev = true ↔ ∃ k ∈ eventKeys ev, bloom k = true := by
  cases ev with
  | transferObject p s r oid =>
    cases r <;> simp [isEventOfInterest, eventKeys, getOwnerAddress] <;> tauto
  | newObject p s r oid =>
    cases r <;> simp [isEventOfInterest, eventKeys, getOwnerAddress] <;> tauto
  | _ =>
    simp [isEventOfInterest, eventKeys] <;> tauto

theorem anyFlatMapKeys (bloom : Bytes → Bool) {α : Type} (L : List α)
    (keys : α → List Bytes) (hit : α → Bool)
    (h : ∀ o, hit o = true ↔ ∃ k ∈ keys o, bloom k = true) :
    L.any hit = true ↔ ∃ k ∈ L.flatMap keys, bloom k = true := by
  rw [List.any_eq_true]
  constructor
  · rintro ⟨o, ho, hh⟩
    obtain ⟨k, hk, hb⟩ := (h o).mp hh
    exact ⟨k, List.mem_flatMap.mpr ⟨o, ho, hk⟩, hb⟩
  · rintro ⟨k, hk, hb⟩
    obtain ⟨o, ho, hk2⟩ := List.mem_flatMap.mp hk
    exact ⟨o, ho, (h o).mpr ⟨k, hk2, hb⟩⟩

/-- C7. Over a Sui-shaped transaction response, `is_tx_of_interest` returns
`true` exactly when the execution status is `Success` and at least one of
the contract's byte keys — the sender; per owned/created/mutated/unwrapped
object its owner address and object id; per shared/deleted/wrapped object
its object id; per event its package id, sender, move-event composite
`package_id ++ module ++ type_name`, object id, and transfer/new-object
recipient owner address if any — is a member of the filter. In particular,
a non-`Success` status yields `false` unconditionally. -/
theorem c7_is_tx_of_interest_iff (bloom : Bytes → Bool) (tx : TxResponse) :
    isTxOfInterest bloom tx = true ↔
      tx.effects.status = ExecutionStatus.success ∧
        ∃ k ∈ interestKeys tx, bloom k = true := by
  obtain ⟨⟨st, gas, created, mutated, unwrapped, sharedObjs, deleted,
    wrapped, events⟩, sender⟩ := tx
  cases st with
  | failure => simp [isTxOfInterest]
  | success =>
    have hA : ((gas :: (created ++ mutated ++ unwrapped)).any
          (ownedObjHit bloom) = true) ↔
        ∃ k ∈ (gas :: (created ++ mutated ++ unwrapped)).flatMap ownedObjKeys,
          bloom k = true :=
      anyFlatMapKeys bloom _ _ _ (ownedObjHit_iff bloom)
    have hC : (events.any (isEventOfInterest bloom) = true) ↔
        ∃ k ∈ events.flatMap eventKeys, bloom k = true :=
      anyFlatMapKeys bloom _ _ _ (isEventOfInterest_iff bloom)
    have hB : ((sharedObjs ++ deleted ++ wrapped).any
          (fun o => bloom o.objectId) = true) ↔
        ∃ k ∈ (sharedObjs ++ deleted ++ wrapped).map SuiObjectRef.objectId,
          bloom k = true := by
      rw [List.any_eq_true]
      constructor
      · rintro ⟨o, ho, hb⟩
        exact ⟨o.objectId, List.mem_map_of_mem _ ho, hb⟩
      · rintro ⟨k, hk, hb⟩
        obtain ⟨o, ho, rfl⟩ := List.mem_map.mp hk
        exact ⟨o, ho, hb⟩
    simp only [isTxOfInterest, interestKeys, Bool.or_eq_true, true_and]
    rw [hA, hB, hC]
    constructor
    · rintro (((h | h) | h) | h)
      · obtain ⟨k, hk, hb⟩ := h
        exact ⟨k, List.mem_cons_of_mem _
          (List.mem_append_left _ (List.mem_append_left _ hk)), hb⟩
      · obtain ⟨k, hk, hb⟩ := h
        exact ⟨k, List.mem_cons_of_mem _
          (List.mem_append_left _ (List.mem_append_right _ hk)), hb⟩
      · obtain ⟨k, hk, hb⟩ := h
        exact ⟨k, List.mem_cons_of_mem _ (List.mem_append_right _ hk), hb⟩
      · exact ⟨sender, List.mem_cons_self _ _, h⟩
    · rintro ⟨k, hk, hb⟩
      rcases List.mem_cons.mp hk with rfl | hk2
      · exact Or.inr hb
      · rcases List.mem_append.mp hk2 with h12 | h3
        · rcases List.mem_append.mp h12 with h1 | h2
          · exact Or.inl (Or.inl (Or.inl ⟨k, h1, hb⟩))
          · exact Or.inl (Or.inl (Or.inr ⟨k, h2, hb⟩))
        · exact Or.inl (Or.inr ⟨k, h3, hb⟩)

/-- C6, evidence. In an iteration whose body fetches succeeded for claim ids
7 (a transaction of interest) and 8 (not of interest) and failed for id 3,
exactly 7 and 8 end up in `ids_to_mark_processed` — the uninteresting 8
included; but the `mark_digests_as_processed` statement carries a single
`?` placeholder (`IN (?)`), not one placeholder per id as marking every id
of the list requires (spec §9), so for the two collected ids the
placeholder and parameter cardinalities disagree and the claimed
`status = 1` update of every listed id cannot execute. -/
theorem c6_ids_collected_but_update_has_one_placeholder :
    (collectProcessedBatch bloomSingle
        [((7, [7]), some txHit), ((8, [8]), some txMiss), ((3, [3]), none)]).1 =
      [7, 8]
    ∧ isTxOfInterest bloomSingle txHit = true
    ∧ isTxOfInterest bloomSingle txMiss = false
    ∧ placeholderCount markDigestsAsProcessedQuery = 1
    ∧ placeholderCount (specMarkProcessedQuery 2) = 2
    ∧ placeholderCount markDigestsAsProcessedQuery ≠
        ([7, 8] : List Int).length := by decide

end Laminar
